import Mathlib

/-!
Shallow embedding of the EduMedia server-side undo subsystem: the per-user
bounded `UndoStack` class and the three HTTP handlers that use it
(`PUT /api/posts/edit`, `DELETE /api/posts/delete`, `POST /api/posts/undo`).

Modeling conventions:
* Actor ids and post ids are natural numbers; the ISO timestamp strings are
  modeled as opaque natural numbers (only stored and compared).
* A post row carries exactly the columns the undo subsystem touches:
  `id`, `author_id`, `content`, `likes`, `created_at`.
* The JavaScript `Map` from user id to array is a function
  `ActorId → Option (List Action)`; `none` models a missing entry.
  `Array.prototype.push` appends at the back, `shift` drops the front,
  `pop` removes the back.
* Each Supabase round trip is modeled by a pure function over the posts
  table plus a boolean failure oracle for the case where the remote call
  returns an error.  `.single()` after an update also errors when no row
  matched, so `updateContent` returns `none` in that case as well.
* The `likes`/`comments` tables are not modeled: the handlers only read
  live counts from them for the response payload and ignore errors of the
  cascade deletes, so no claim depends on them.
-/

set_option maxRecDepth 8000

namespace EduMedia

abbrev ActorId := Nat

/-- A row of the `posts` table, restricted to the columns snapshotted by the
delete handler (`id`, `author_id`, `content`, `likes`, `created_at`). -/
structure Post where
  id : Nat
  author_id : ActorId
  content : String
  likes : Nat
  created_at : Nat
deriving DecidableEq

/-- A compensating action stored on the undo stack.  The JavaScript objects
are dynamic records with a `type` string field; only `EDIT` and `DELETE`
are ever constructed, but the undo handler has an explicit branch for any
other tag, modeled by the `OTHER` constructor. -/
inductive Action where
  | EDIT (post_id : Nat) (original_content : String) (new_content : String)
      (timestamp : Nat)
  | DELETE (post : Post) (timestamp : Nat)
  | OTHER (tag : String)
deriving DecidableEq

/-- `this.stacks`: the `Map` from user id to array of actions.  (`Stacks`
is the Lean name of the map type; the class field is called `stacks` in the
source.) -/
abbrev StacksMap := ActorId → Option (List Action)

/-- A `Map` with no entries (the state right after `new UndoStack()`). -/
def emptyStacks : StacksMap := fun _ => none

namespace UndoStack

/-- `push(userId, action)`: create the entry if absent, append at the back,
then drop the front entry if the length exceeds 10. -/
def push (s : StacksMap) (userId : ActorId) (action : Action) : StacksMap :=
  let cur := (s userId).getD []
  let appended := cur ++ [action]
  let bounded := if appended.length > 10 then appended.tail else appended
  fun k => if k = userId then some bounded else s k

/-- `pop(userId)`: return `null` if the entry is absent or empty, otherwise
remove and return the last element of the array.  The (possibly emptied)
array stays in the `Map`. -/
def pop (s : StacksMap) (userId : ActorId) : Option Action × StacksMap :=
  match s userId with
  | none => (none, s)
  | some arr =>
    if arr.isEmpty then (none, s)
    else (arr.getLast?, fun k => if k = userId then some arr.dropLast else s k)

/-- `peek(userId)`: `stack[stack.length - 1]`, or `null` when absent/empty. -/
def peek (s : StacksMap) (userId : ActorId) : Option Action :=
  match s userId with
  | none => none
  | some arr => if arr.isEmpty then none else arr.getLast?

/-- `isEmpty(userId)`: no entry, or an entry holding the empty array. -/
def isEmpty (s : StacksMap) (userId : ActorId) : Bool :=
  match s userId with
  | none => true
  | some arr => arr.isEmpty

/-- `clear(userId)`: delete the actor's entry from the `Map`. -/
def clear (s : StacksMap) (userId : ActorId) : StacksMap :=
  fun k => if k = userId then none else s k

/-- `size(userId)`: length of the actor's array, `0` when absent. -/
def size (s : StacksMap) (userId : ActorId) : Nat :=
  match s userId with
  | none => 0
  | some arr => arr.length

end UndoStack

/-- One mutating call on the shared `UndoStack` instance (the read-only
accessors `peek`, `isEmpty`, `size` do not change the `Map`). -/
inductive StackOp where
  | pushOp (userId : ActorId) (action : Action)
  | popOp (userId : ActorId)
  | clearOp (userId : ActorId)

def applyOp (s : StacksMap) (op : StackOp) : StacksMap :=
  match op with
  | .pushOp u a => UndoStack.push s u a
  | .popOp u => (UndoStack.pop s u).2
  | .clearOp u => UndoStack.clear s u

/-- Run a sequence of stack operations in order. -/
def applyOps (s : StacksMap) (ops : List StackOp) : StacksMap :=
  ops.foldl applyOp s

/-- Push a list of actions for one actor, in order. -/
def pushAll (s : StacksMap) (userId : ActorId) (as : List Action) : StacksMap :=
  as.foldl (fun t a => UndoStack.push t userId a) s

/-- Iterate `pop` for one actor `n` times (keeping only the stack state). -/
def popN (s : StacksMap) (userId : ActorId) : Nat → StacksMap
  | 0 => s
  | n + 1 => (UndoStack.pop (popN s userId n) userId).2

/-- Whitespace for JavaScript `String.prototype.trim` (the common ASCII
white-space characters; exotic Unicode space code points never appear in
the inputs considered here). -/
def jsWhitespace (c : Char) : Bool :=
  c == ' ' || c == '\t' || c == '\n' || c == '\r' || c == '\x0b' || c == '\x0c'

/-- JavaScript `content.trim()`: strip leading and trailing whitespace. -/
def jsTrim (s : String) : String :=
  String.mk (((s.data.dropWhile jsWhitespace).reverse.dropWhile jsWhitespace).reverse)

/-- The row filter `.eq('id', post_id).eq('author_id', userId)` used by every
post query of the undo subsystem. -/
def ownedMatch (post_id : Nat) (userId : ActorId) (p : Post) : Bool :=
  p.id == post_id && p.author_id == userId

/-- `.from('posts').select('*').eq('id', post_id).eq('author_id', userId)
.single()`: the matching row, or `none` when the call fails or no row
matches (`fetchError || !row`). -/
def fetchOwned (posts : List Post) (post_id : Nat) (userId : ActorId)
    (fails : Bool) : Option Post :=
  if fails then none else posts.find? (ownedMatch post_id userId)

/-- `.from('posts').update({content}).eq('id', post_id).eq('author_id',
userId).select().single()`: the updated row and the new table, or `none`
when the call fails or — because of `.single()` — when no row matched. -/
def updateContent (posts : List Post) (post_id : Nat) (userId : ActorId)
    (newContent : String) (fails : Bool) : Option (Post × List Post) :=
  if fails then none
  else
    match posts.find? (ownedMatch post_id userId) with
    | none => none
    | some p =>
      some ({ p with content := newContent },
        posts.map fun q =>
          if ownedMatch post_id userId q then { q with content := newContent } else q)

/-- `.from('posts').insert([row]).select().single()`: the inserted row and
the new table, or `none` when the call fails. -/
def insertPost (posts : List Post) (p : Post) (fails : Bool) :
    Option (Post × List Post) :=
  if fails then none else some (p, posts ++ [p])

/-- `.from('posts').delete().eq('id', post_id).eq('author_id', userId)`. -/
def deleteOwned (posts : List Post) (post_id : Nat) (userId : ActorId) :
    List Post :=
  posts.filter fun p => !(ownedMatch post_id userId p)

/-- The server state the undo subsystem touches: the `posts` table and the
process-wide `undoStack`. -/
structure ServerState where
  posts : List Post
  stackMap : StacksMap

/-- Outcome of `PUT /api/posts/edit`, tagged by response branch. -/
inductive EditResult where
  | missingFields
  | emptyContent
  | notFoundOrForbidden
  | updateFailed
  | ok (post : Post)
deriving DecidableEq

/-- HTTP status code of each edit outcome. -/
def EditResult.status : EditResult → Nat
  | .missingFields => 400
  | .emptyContent => 400
  | .notFoundOrForbidden => 404
  | .updateFailed => 500
  | .ok _ => 200

/-- Outcome of `DELETE /api/posts/delete`, tagged by response branch. -/
inductive DeleteResult where
  | missingPostId
  | notFoundOrForbidden
  | deleteFailed
  | ok (deleted_post_id : Nat)
deriving DecidableEq

/-- HTTP status code of each delete outcome. -/
def DeleteResult.status : DeleteResult → Nat
  | .missingPostId => 400
  | .notFoundOrForbidden => 404
  | .deleteFailed => 500
  | .ok _ => 200

/-- Outcome of `POST /api/posts/undo`.  The success payloads carry the
restored row and the reported `remaining_undos`. -/
inductive UndoResult where
  | nothingToUndo
  | editUndone (post : Post) (remaining_undos : Nat)
  | deleteUndone (post : Post) (remaining_undos : Nat)
  | undoEditFailed
  | undoDeleteFailed
  | unknownActionType
  | internalError
deriving DecidableEq

/-- HTTP status code of each undo outcome. -/
def UndoResult.status : UndoResult → Nat
  | .nothingToUndo => 400
  | .editUndone _ _ => 200
  | .deleteUndone _ _ => 200
  | .undoEditFailed => 500
  | .undoDeleteFailed => 500
  | .unknownActionType => 400
  | .internalError => 500

/-- `PUT /api/posts/edit` (lines 620-699): validate, fetch with ownership
check, push the `EDIT` compensation, then update the store.  `post_id = 0`
and `content = ""` model the JavaScript falsy check `!post_id || !content`.
`fetchFails` / `updateFails` are the failure oracles of the two store
calls. -/
def editPost (st : ServerState) (userId : ActorId) (post_id : Nat)
    (content : String) (now : Nat) (fetchFails updateFails : Bool) :
    EditResult × ServerState :=
  if post_id == 0 || content == "" then (EditResult.missingFields, st)
  else if (jsTrim content).length == 0 then (EditResult.emptyContent, st)
  else
    match fetchOwned st.posts post_id userId fetchFails with
    | none => (EditResult.notFoundOrForbidden, st)
    | some originalPost =>
      let stacks1 := UndoStack.push st.stackMap userId
        (Action.EDIT originalPost.id originalPost.content (jsTrim content) now)
      match updateContent st.posts post_id userId (jsTrim content) updateFails with
      | none => (EditResult.updateFailed, { posts := st.posts, stackMap := stacks1 })
      | some (updatedPost, posts1) =>
        (EditResult.ok updatedPost, { posts := posts1, stackMap := stacks1 })

/-- `DELETE /api/posts/delete` (lines 705-799): validate, fetch with
ownership check, push the `DELETE` compensation snapshotting the row, then
delete.  The cascade deletes of `likes`/`comments` rows touch tables not
modeled here and their errors are only logged; `postDeleteFails` is the
failure oracle of the final post delete. -/
def deletePost (st : ServerState) (userId : ActorId) (post_id : Nat)
    (now : Nat) (fetchFails postDeleteFails : Bool) :
    DeleteResult × ServerState :=
  if post_id == 0 then (DeleteResult.missingPostId, st)
  else
    match fetchOwned st.posts post_id userId fetchFails with
    | none => (DeleteResult.notFoundOrForbidden, st)
    | some postToDelete =>
      let snap : Post :=
        { id := postToDelete.id, author_id := postToDelete.author_id,
          content := postToDelete.content, likes := postToDelete.likes,
          created_at := postToDelete.created_at }
      let stacks1 := UndoStack.push st.stackMap userId (Action.DELETE snap now)
      if postDeleteFails then
        (DeleteResult.deleteFailed, { posts := st.posts, stackMap := stacks1 })
      else
        (DeleteResult.ok post_id,
         { posts := deleteOwned st.posts post_id userId, stackMap := stacks1 })

/-- `POST /api/posts/undo` (lines 805-937): fail fast on an empty stack,
pop the last action, apply the matching compensation; push the popped
action back and fail when the store write fails; report `remaining_undos`
as the stack size after the pop.  `writeFails` is the failure oracle of
the compensating store write.  The `internalError` branch is the JS
`catch` (unreachable: `pop` cannot return `null` after the `isEmpty`
check). -/
def undoPost (st : ServerState) (userId : ActorId) (writeFails : Bool) :
    UndoResult × ServerState :=
  if UndoStack.isEmpty st.stackMap userId then (UndoResult.nothingToUndo, st)
  else
    match UndoStack.pop st.stackMap userId with
    | (none, _) => (UndoResult.internalError, st)
    | (some lastAction, stacks1) =>
      match lastAction with
      | Action.EDIT post_id original_content new_content ts =>
        match updateContent st.posts post_id userId original_content writeFails with
        | none =>
          (UndoResult.undoEditFailed,
           { posts := st.posts,
             stackMap := UndoStack.push stacks1 userId
               (Action.EDIT post_id original_content new_content ts) })
        | some (restoredPost, posts1) =>
          (UndoResult.editUndone restoredPost (UndoStack.size stacks1 userId),
           { posts := posts1, stackMap := stacks1 })
      | Action.DELETE post ts =>
        match insertPost st.posts post writeFails with
        | none =>
          (UndoResult.undoDeleteFailed,
           { posts := st.posts,
             stackMap := UndoStack.push stacks1 userId (Action.DELETE post ts) })
        | some (restoredPost, posts1) =>
          (UndoResult.deleteUndone restoredPost (UndoStack.size stacks1 userId),
           { posts := posts1, stackMap := stacks1 })
      | Action.OTHER _ =>
        (UndoResult.unknownActionType, { posts := st.posts, stackMap := stacks1 })

/-! ### Basic facts about the `UndoStack` operations -/

theorem size_eq_getD (s : StacksMap) (u : ActorId) :
    UndoStack.size s u = ((s u).getD []).length := by
  unfold UndoStack.size
  cases s u <;> rfl

theorem isEmpty_of_concat (s : StacksMap) (u : ActorId) (arr : List Action)
    (a : Action) (h : s u = some (arr ++ [a])) :
    UndoStack.isEmpty s u = false := by
  unfold UndoStack.isEmpty
  rw [h]
  simp [List.isEmpty_iff]

theorem mem_of_getLast?_eq (l : List Action) (a : Action)
    (h : l.getLast? = some a) : a ∈ l := by
  induction l with
  | nil => simp at h
  | cons x t ih =>
    cases t with
    | nil => simp [List.getLast?] at h; simp [h]
    | cons y r =>
      rw [List.getLast?_cons_cons] at h
      exact List.mem_cons_of_mem x (ih h)

theorem pop_concat (s : StacksMap) (u : ActorId) (arr : List Action) (a : Action)
    (h : s u = some (arr ++ [a])) :
    UndoStack.pop s u = (some a, fun k => if k = u then some arr else s k) := by
  unfold UndoStack.pop
  rw [h]
  simp [List.isEmpty_iff, List.getLast?_concat, List.dropLast_concat]

theorem pop_mem (s : StacksMap) (u : ActorId) (a : Action)
    (h : (UndoStack.pop s u).1 = some a) : a ∈ (s u).getD [] := by
  unfold UndoStack.pop at h
  cases hs : s u with
  | none => rw [hs] at h; simp at h
  | some arr =>
    rw [hs] at h
    by_cases he : arr.isEmpty
    · simp [he] at h
    · simp only [he, Bool.false_eq_true, if_false] at h
      simpa [hs] using mem_of_getLast?_eq arr a h

theorem pop_state_getD_subset (s : StacksMap) (u : ActorId) :
    (((UndoStack.pop s u).2) u).getD [] ⊆ (s u).getD [] := by
  unfold UndoStack.pop
  cases hs : s u with
  | none => simp [hs]
  | some arr =>
    by_cases he : arr.isEmpty
    · simp [he, hs]
    · simp only [he, Bool.false_eq_true, if_false]
      simp [hs]
      exact List.dropLast_subset arr

theorem popN_getD_subset (s : StacksMap) (u : ActorId) (n : Nat) :
    ((popN s u n) u).getD [] ⊆ (s u).getD [] := by
  induction n with
  | zero => exact fun a h => h
  | succ m ih =>
    exact fun a h => ih (pop_state_getD_subset (popN s u m) u h)

theorem push_concat (s : StacksMap) (u : ActorId) (a : Action) :
    ∃ arr0 : List Action,
      UndoStack.push s u a = (fun k => if k = u then some (arr0 ++ [a]) else s k) ∧
      arr0.length = (if 10 ≤ ((s u).getD []).length
        then ((s u).getD []).length - 1 else ((s u).getD []).length) := by
  unfold UndoStack.push
  by_cases hlen : ((s u).getD [] ++ [a]).length > 10
  · refine ⟨((s u).getD []).tail ++ [a].take 0, ?_, ?_⟩
    · simp only [hlen, if_true, List.take_zero, List.append_nil]
      have hne : (s u).getD [] ≠ [] := by
        intro hnil
        rw [hnil] at hlen
        simp at hlen
      funext k
      by_cases hk : k = u <;> simp [hk]
      cases hcur : (s u).getD [] with
      | nil => exact absurd hcur hne
      | cons x t => simp
    · simp at hlen
      have h10 : 10 ≤ ((s u).getD []).length := by omega
      simp [h10]
  · refine ⟨(s u).getD [], ?_, ?_⟩
    · simp only [hlen, if_false]
    · simp at hlen
      have h10 : ¬ 10 ≤ ((s u).getD []).length := by omega
      simp [h10]

theorem push_at (s : StacksMap) (u : ActorId) (a : Action) :
    ∃ arr0 : List Action, (UndoStack.push s u a) u = some (arr0 ++ [a]) := by
  obtain ⟨arr0, heq, -⟩ := push_concat s u a
  exact ⟨arr0, by rw [heq]; simp⟩

theorem peek_push (s : StacksMap) (u : ActorId) (a : Action) :
    UndoStack.peek (UndoStack.push s u a) u = some a := by
  obtain ⟨arr0, heq⟩ := push_at s u a
  unfold UndoStack.peek
  rw [heq]
  simp [List.isEmpty_iff, List.getLast?_concat]

theorem push_restores (s : StacksMap) (u : ActorId) (a : Action) (arr : List Action)
    (h : s u = some (arr ++ [a])) (hlen : (arr ++ [a]).length ≤ 10) :
    UndoStack.push (fun k => if k = u then some arr else s k) u a = s := by
  unfold UndoStack.push
  funext k
  by_cases hk : k = u
  · subst hk
    have hle : ¬ (arr ++ [a]).length > 10 := by omega
    simp [hle, h]
    intro hgt
    exact absurd hgt (by simp at hlen; omega)
  · simp [hk]

/-! ### Characterizations of the three handlers on their main paths -/

theorem string_length_eq_zero (s : String) : s.length = 0 ↔ s = "" := by
  cases s with
  | mk data => simp [String.length, String.ext_iff, List.length_eq_zero]

theorem find?_map_of_pred (l : List Post) (g : Post → Post) (pred : Post → Bool)
    (hg : ∀ x, pred (g x) = pred x) :
    (l.map g).find? pred = (l.find? pred).map g := by
  rw [List.find?_map g l]
  have hpg : pred ∘ g = pred := funext hg
  rw [hpg]

theorem ownedMatch_eq (post_id : Nat) (userId : ActorId) (p : Post)
    (h : ownedMatch post_id userId p = true) :
    p.id = post_id ∧ p.author_id = userId := by
  unfold ownedMatch at h
  simp at h
  exact h

theorem editPost_ok (st : ServerState) (userId : ActorId) (post_id : Nat)
    (content : String) (now : Nat) (p : Post)
    (hpid : post_id ≠ 0) (hc : content ≠ "") (ht : jsTrim content ≠ "")
    (hfind : st.posts.find? (ownedMatch post_id userId) = some p) :
    editPost st userId post_id content now false false =
      (EditResult.ok { p with content := jsTrim content },
       { posts := st.posts.map fun q =>
           if ownedMatch post_id userId q then { q with content := jsTrim content } else q,
         stackMap := UndoStack.push st.stackMap userId
           (Action.EDIT p.id p.content (jsTrim content) now) }) := by
  have hlen : ((jsTrim content).length == 0) = false := by
    simp
    intro h0
    exact ht ((string_length_eq_zero _).mp h0)
  unfold editPost fetchOwned updateContent
  simp [hpid, hc, hlen, hfind]

theorem deletePost_ok (st : ServerState) (userId : ActorId) (post_id : Nat)
    (now : Nat) (p : Post)
    (hpid : post_id ≠ 0)
    (hfind : st.posts.find? (ownedMatch post_id userId) = some p) :
    deletePost st userId post_id now false false =
      (DeleteResult.ok post_id,
       { posts := deleteOwned st.posts post_id userId,
         stackMap := UndoStack.push st.stackMap userId (Action.DELETE p now) }) := by
  unfold deletePost fetchOwned
  simp [hpid, hfind]

theorem undoPost_edit_ok (st : ServerState) (userId pid : Nat) (oc nc : String)
    (ts : Nat) (arr : List Action) (q : Post)
    (hstack : st.stackMap userId = some (arr ++ [Action.EDIT pid oc nc ts]))
    (hfind : st.posts.find? (ownedMatch pid userId) = some q) :
    undoPost st userId false =
      (UndoResult.editUndone { q with content := oc } arr.length,
       { posts := st.posts.map fun r =>
           if ownedMatch pid userId r then { r with content := oc } else r,
         stackMap := fun k => if k = userId then some arr else st.stackMap k }) := by
  unfold undoPost
  rw [isEmpty_of_concat st.stackMap userId arr _ hstack]
  rw [pop_concat st.stackMap userId arr _ hstack]
  unfold updateContent
  simp [hfind, size_eq_getD]

theorem undoPost_delete_ok (st : ServerState) (userId : ActorId) (q : Post)
    (ts : Nat) (arr : List Action)
    (hstack : st.stackMap userId = some (arr ++ [Action.DELETE q ts])) :
    undoPost st userId false =
      (UndoResult.deleteUndone q arr.length,
       { posts := st.posts ++ [q],
         stackMap := fun k => if k = userId then some arr else st.stackMap k }) := by
  unfold undoPost
  rw [isEmpty_of_concat st.stackMap userId arr _ hstack]
  rw [pop_concat st.stackMap userId arr _ hstack]
  unfold insertPost
  simp [size_eq_getD]

theorem undoPost_edit_fail (st : ServerState) (userId pid : Nat) (oc nc : String)
    (ts : Nat) (arr : List Action)
    (hstack : st.stackMap userId = some (arr ++ [Action.EDIT pid oc nc ts]))
    (hlen : (arr ++ [Action.EDIT pid oc nc ts]).length ≤ 10) :
    undoPost st userId true = (UndoResult.undoEditFailed, st) := by
  unfold undoPost
  rw [isEmpty_of_concat st.stackMap userId arr _ hstack]
  rw [pop_concat st.stackMap userId arr _ hstack]
  unfold updateContent
  simp
  rw [push_restores st.stackMap userId _ arr hstack hlen]

theorem undoPost_delete_fail (st : ServerState) (userId : ActorId) (q : Post)
    (ts : Nat) (arr : List Action)
    (hstack : st.stackMap userId = some (arr ++ [Action.DELETE q ts]))
    (hlen : (arr ++ [Action.DELETE q ts]).length ≤ 10) :
    undoPost st userId true = (UndoResult.undoDeleteFailed, st) := by
  unfold undoPost
  rw [isEmpty_of_concat st.stackMap userId arr _ hstack]
  rw [pop_concat st.stackMap userId arr _ hstack]
  unfold insertPost
  simp
  rw [push_restores st.stackMap userId _ arr hstack hlen]

/-! ### The 10-action bound -/

theorem size_push_le (s : StacksMap) (u : ActorId) (a : Action)
    (hinv : ∀ w, UndoStack.size s w ≤ 10) (v : ActorId) :
    UndoStack.size (UndoStack.push s u a) v ≤ 10 := by
  obtain ⟨arr0, heq, hlen⟩ := push_concat s u a
  rw [size_eq_getD, heq]
  by_cases hv : v = u
  · subst hv
    have hcur : ((s v).getD []).length ≤ 10 := by
      have := hinv v
      rwa [size_eq_getD] at this
    simp
    split at hlen <;> omega
  · simp only [if_neg hv]
    have := hinv v
    rwa [size_eq_getD] at this

theorem size_pop_le (s : StacksMap) (u : ActorId)
    (hinv : ∀ w, UndoStack.size s w ≤ 10) (v : ActorId) :
    UndoStack.size ((UndoStack.pop s u).2) v ≤ 10 := by
  unfold UndoStack.pop
  cases hs : s u with
  | none => simpa using hinv v
  | some arr =>
    by_cases he : arr.isEmpty
    · simpa [he] using hinv v
    · simp only [he, Bool.false_eq_true, if_false]
      rw [size_eq_getD]
      by_cases hv : v = u
      · subst hv
        have harr : arr.length ≤ 10 := by
          have := hinv v
          rw [size_eq_getD, hs] at this
          simpa using this
        simp [List.length_dropLast]
        omega
      · simp only [if_neg hv]
        rw [← size_eq_getD]
        exact hinv v

theorem size_clear_le (s : StacksMap) (u : ActorId)
    (hinv : ∀ w, UndoStack.size s w ≤ 10) (v : ActorId) :
    UndoStack.size (UndoStack.clear s u) v ≤ 10 := by
  unfold UndoStack.clear
  rw [size_eq_getD]
  by_cases hv : v = u
  · simp [hv]
  · simp only [if_neg hv]
    rw [← size_eq_getD]
    exact hinv v

theorem applyOps_size_le (ops : List StackOp) :
    ∀ s : StacksMap, (∀ w, UndoStack.size s w ≤ 10) →
      ∀ v, UndoStack.size (applyOps s ops) v ≤ 10 := by
  induction ops with
  | nil => exact fun s h v => h v
  | cons op rest ih =>
    intro s h v
    refine ih (applyOp s op) ?_ v
    intro w
    cases op with
    | pushOp u a => exact size_push_le s u a h w
    | popOp u => exact size_pop_le s u h w
    | clearOp u => exact size_clear_le s u h w

theorem pushAll_getD (as : List Action) :
    ∀ (s : StacksMap) (u : ActorId) (l : List Action),
      s u = some l → (l ++ as).length ≤ 10 →
      (pushAll s u as) u = some (l ++ as) := by
  induction as with
  | nil =>
    intro s u l h _
    simpa [pushAll] using h
  | cons a rest ih =>
    intro s u l h hlen
    have hpush : (UndoStack.push s u a) u = some (l ++ [a]) := by
      unfold UndoStack.push
      have hle : ¬ (l ++ [a]).length > 10 := by
        simp at hlen ⊢
        omega
      simp [h, hle]
      intro hgt
      exact absurd hgt (by simp at hle; omega)
    have h2 := ih (UndoStack.push s u a) u (l ++ [a]) hpush
      (by simp at hlen ⊢; omega)
    rw [List.append_assoc] at h2
    exact h2

theorem pushAll_empty_cons (u : ActorId) (a : Action) (rest : List Action)
    (hlen : (a :: rest).length ≤ 10) :
    (pushAll emptyStacks u (a :: rest)) u = some (a :: rest) := by
  have h1 : (UndoStack.push emptyStacks u a) u = some [a] := by
    unfold UndoStack.push emptyStacks
    simp
  exact pushAll_getD rest (UndoStack.push emptyStacks u a) u [a] h1
    (by simpa using hlen)

theorem pushAll_empty_size (u : ActorId) (as : List Action)
    (hlen : as.length ≤ 10) :
    UndoStack.size (pushAll emptyStacks u as) u = as.length := by
  cases as with
  | nil => rfl
  | cons a rest =>
    rw [size_eq_getD, pushAll_empty_cons u a rest hlen]
    simp

theorem pushAll_eleventh (u : ActorId) (a0 : Action) (as : List Action)
    (hlen : as.length = 10) :
    (pushAll emptyStacks u (a0 :: as)) u = some as := by
  rcases List.eq_nil_or_concat as with hnil | ⟨bs, b, rfl⟩
  · rw [hnil] at hlen
    simp at hlen
  · simp only [List.concat_eq_append] at hlen ⊢
    have hsplit : a0 :: (bs ++ [b]) = (a0 :: bs) ++ [b] := rfl
    rw [hsplit]
    have hfold : pushAll emptyStacks u ((a0 :: bs) ++ [b]) =
        UndoStack.push (pushAll emptyStacks u (a0 :: bs)) u b := by
      unfold pushAll
      rw [List.foldl_append]
      rfl
    rw [hfold]
    have hmid : (pushAll emptyStacks u (a0 :: bs)) u = some (a0 :: bs) := by
      apply pushAll_empty_cons
      simp at hlen ⊢
      omega
    unfold UndoStack.push
    have hgt : ((a0 :: bs) ++ [b]).length > 10 := by
      simp at hlen ⊢
      omega
    simp [hmid, hgt]
    simp at hlen
    omega

/-! ### Claim theorems -/

/-- C1: if the compensating store write performed by undo fails (the update
for an EDIT compensation or the insert for a DELETE compensation), the
popped action is pushed back onto the actor's stack unchanged and a 5xx
error is surfaced, so the whole server state -- in particular the actor's
stack, same elements, same order, same size -- equals the state before the
undo attempt. -/
theorem undo_store_failure_preserves_stack (st : ServerState)
    (userId : ActorId) (arr : List Action) (a : Action)
    (hstack : st.stackMap userId = some (arr ++ [a]))
    (hlen : (arr ++ [a]).length ≤ 10)
    (hcomp : (∃ pid oc nc ts, a = Action.EDIT pid oc nc ts) ∨
      ∃ q ts, a = Action.DELETE q ts) :
    ((undoPost st userId true).1 = UndoResult.undoEditFailed ∨
      (undoPost st userId true).1 = UndoResult.undoDeleteFailed) ∧
    (undoPost st userId true).1.status = 500 ∧
    (undoPost st userId true).2 = st := by
  rcases hcomp with ⟨pid, oc, nc, ts, rfl⟩ | ⟨q, ts, rfl⟩
  · have h := undoPost_edit_fail st userId pid oc nc ts arr hstack hlen
    rw [h]
    exact ⟨Or.inl rfl, rfl, rfl⟩
  · have h := undoPost_delete_fail st userId q ts arr hstack hlen
    rw [h]
    exact ⟨Or.inr rfl, rfl, rfl⟩

def w1State : ServerState :=
  ⟨[⟨3, 1, "a", 0, 0⟩], fun k => if k = 1 then some [Action.EDIT 3 "a" "b" 0] else none⟩

theorem undo_store_failure_preserves_stack_witness :
    ((undoPost w1State 1 true).1 = UndoResult.undoEditFailed ∨
      (undoPost w1State 1 true).1 = UndoResult.undoDeleteFailed) ∧
    (undoPost w1State 1 true).1.status = 500 ∧
    (undoPost w1State 1 true).2 = w1State :=
  undo_store_failure_preserves_stack w1State 1 [] (Action.EDIT 3 "a" "b" 0)
    (by decide) (by decide) (Or.inl ⟨3, "a", "b", 0, rfl⟩)

/-- C5: undo for an actor with an empty stack (absent map entry or an
entry holding the empty array) returns the "nothing to undo" 4xx
condition and mutates neither the posts table nor any actor's stack. -/
theorem undo_empty_stack_noop (st : ServerState) (userId : ActorId)
    (writeFails : Bool) (h : UndoStack.isEmpty st.stackMap userId = true) :
    undoPost st userId writeFails = (UndoResult.nothingToUndo, st) ∧
    (undoPost st userId writeFails).1.status = 400 := by
  have hmain : undoPost st userId writeFails = (UndoResult.nothingToUndo, st) := by
    unfold undoPost
    simp [h]
  exact ⟨hmain, by rw [hmain]; rfl⟩

def emptyState : ServerState := ⟨[], emptyStacks⟩

theorem undo_empty_stack_noop_witness :
    undoPost emptyState 1 false = (UndoResult.nothingToUndo, emptyState) ∧
    (undoPost emptyState 1 false).1.status = 400 :=
  undo_empty_stack_noop emptyState 1 false rfl

/-- C6: when the ownership-checked fetch yields no row (post absent, post
owned by a different actor, or the call itself failing), edit and delete
both return the conflated not-found/not-permitted 404 condition before any
stack mutation: the whole server state -- posts table and every actor's
undo stack -- is unchanged. -/
theorem edit_delete_not_found_no_mutation :
    (∀ (st : ServerState) (userId post_id : Nat) (content : String)
        (now : Nat) (ff uf : Bool),
      post_id ≠ 0 → content ≠ "" → jsTrim content ≠ "" →
      fetchOwned st.posts post_id userId ff = none →
      editPost st userId post_id content now ff uf =
        (EditResult.notFoundOrForbidden, st) ∧
      EditResult.status EditResult.notFoundOrForbidden = 404) ∧
    (∀ (st : ServerState) (userId post_id now : Nat) (ff df : Bool),
      post_id ≠ 0 →
      fetchOwned st.posts post_id userId ff = none →
      deletePost st userId post_id now ff df =
        (DeleteResult.notFoundOrForbidden, st) ∧
      DeleteResult.status DeleteResult.notFoundOrForbidden = 404) := by
  constructor
  · intro st userId post_id content now ff uf hpid hc ht hfetch
    have hlen : ((jsTrim content).length == 0) = false := by
      simp
      intro h0
      exact ht ((string_length_eq_zero _).mp h0)
    refine ⟨?_, rfl⟩
    unfold editPost
    simp [hpid, hc, hlen, hfetch]
  · intro st userId post_id now ff df hpid hfetch
    refine ⟨?_, rfl⟩
    unfold deletePost
    simp [hpid, hfetch]

def u1State : ServerState := ⟨[⟨1, 1, "hello", 0, 0⟩], emptyStacks⟩

theorem edit_delete_not_found_no_mutation_witness :
    (editPost u1State 2 1 "new" 0 false false =
        (EditResult.notFoundOrForbidden, u1State) ∧
      EditResult.status EditResult.notFoundOrForbidden = 404) ∧
    (deletePost u1State 2 1 0 false false =
        (DeleteResult.notFoundOrForbidden, u1State) ∧
      DeleteResult.status DeleteResult.notFoundOrForbidden = 404) :=
  ⟨edit_delete_not_found_no_mutation.1 u1State 2 1 "new" 0 false false
      (by decide) (by decide) (by decide) (by decide),
   edit_delete_not_found_no_mutation.2 u1State 2 1 0 false false
      (by decide) (by decide)⟩

/-- C7: pop removes and returns the back (most recently pushed) entry and
returns none -- not an error -- when the actor has no recorded actions;
peek returns the same most recent entry without removing it, with the same
none contract. -/
theorem pop_peek_lifo :
    (∀ (s : StacksMap) (u : ActorId), UndoStack.isEmpty s u = true →
      UndoStack.pop s u = (none, s) ∧ UndoStack.peek s u = none) ∧
    (∀ (s : StacksMap) (u : ActorId) (arr : List Action) (a : Action),
      s u = some (arr ++ [a]) →
      UndoStack.pop s u = (some a, fun k => if k = u then some arr else s k) ∧
      UndoStack.peek s u = some a) := by
  constructor
  · intro s u h
    unfold UndoStack.isEmpty at h
    unfold UndoStack.pop UndoStack.peek
    cases hs : s u with
    | none => exact ⟨rfl, rfl⟩
    | some arr =>
      rw [hs] at h
      simp at h
      subst h
      exact ⟨by simp, by simp⟩
  · intro s u arr a h
    refine ⟨pop_concat s u arr a h, ?_⟩
    unfold UndoStack.peek
    rw [h]
    simp [List.isEmpty_iff, List.getLast?_concat]

def oneActionStacks : StacksMap :=
  fun k => if k = 1 then some [Action.DELETE ⟨7, 1, "bye", 3, 0⟩ 2] else none

theorem pop_peek_lifo_witness :
    (UndoStack.pop emptyStacks 1 = (none, emptyStacks) ∧
      UndoStack.peek emptyStacks 1 = none) ∧
    (UndoStack.pop oneActionStacks 1 =
        (some (Action.DELETE ⟨7, 1, "bye", 3, 0⟩ 2),
         fun k => if k = 1 then some [] else oneActionStacks k) ∧
      UndoStack.peek oneActionStacks 1 = some (Action.DELETE ⟨7, 1, "bye", 3, 0⟩ 2)) :=
  ⟨pop_peek_lifo.1 emptyStacks 1 rfl,
   pop_peek_lifo.2 oneActionStacks 1 [] (Action.DELETE ⟨7, 1, "bye", 3, 0⟩ 2)
     (by decide)⟩

/-- C9: when the popped action's type tag is neither EDIT nor DELETE, undo
reports the 400 "Unknown action type" client error WITHOUT pushing the
popped action back: the actor's stack ends exactly one element shorter
than before the attempt (the action is dropped), unlike the store-failure
path which restores the stack. -/
theorem unknown_action_type_loses_action (st : ServerState) (userId : ActorId)
    (arr : List Action) (tag : String) (writeFails : Bool)
    (hstack : st.stackMap userId = some (arr ++ [Action.OTHER tag])) :
    undoPost st userId writeFails =
      (UndoResult.unknownActionType,
       { posts := st.posts,
         stackMap := fun k => if k = userId then some arr else st.stackMap k }) ∧
    UndoResult.status UndoResult.unknownActionType = 400 ∧
    UndoStack.size (undoPost st userId writeFails).2.stackMap userId + 1 =
      UndoStack.size st.stackMap userId := by
  have hmain : undoPost st userId writeFails =
      (UndoResult.unknownActionType,
       { posts := st.posts,
         stackMap := fun k => if k = userId then some arr else st.stackMap k }) := by
    unfold undoPost
    rw [isEmpty_of_concat st.stackMap userId arr _ hstack]
    rw [pop_concat st.stackMap userId arr _ hstack]
    rfl
  refine ⟨hmain, rfl, ?_⟩
  rw [hmain, size_eq_getD, size_eq_getD, hstack]
  simp

def w9State : ServerState :=
  ⟨[], fun k => if k = 1 then some [Action.OTHER "LIKE"] else none⟩

theorem unknown_action_type_loses_action_witness :
    undoPost w9State 1 false =
      (UndoResult.unknownActionType,
       { posts := w9State.posts,
         stackMap := fun k => if k = 1 then some [] else w9State.stackMap k }) ∧
    UndoResult.status UndoResult.unknownActionType = 400 ∧
    UndoStack.size (undoPost w9State 1 false).2.stackMap 1 + 1 =
      UndoStack.size w9State.stackMap 1 :=
  unknown_action_type_loses_action w9State 1 [] "LIKE" false (by decide)

/-- C10: every UndoStack operation invoked for actor u leaves the sequence
of every other actor v unchanged; the accessors peek, isEmpty and size are
pure reads returning values, so only push, pop and clear touch the map and
each of them is shown to preserve every other actor's entry. -/
theorem stack_ops_actor_isolation (s : StacksMap) (u v : ActorId) (a : Action)
    (h : v ≠ u) :
    UndoStack.push s u a v = s v ∧
    ((UndoStack.pop s u).2) v = s v ∧
    UndoStack.clear s u v = s v := by
  refine ⟨?_, ?_, ?_⟩
  · unfold UndoStack.push
    simp [h]
  · unfold UndoStack.pop
    cases hs : s u with
    | none => rfl
    | some arr =>
      by_cases he : arr.isEmpty
      · simp [he]
      · simp [he, h]
  · unfold UndoStack.clear
    simp [h]

theorem stack_ops_actor_isolation_witness :
    UndoStack.push oneActionStacks 1 (Action.OTHER "x") 2 = oneActionStacks 2 ∧
    ((UndoStack.pop oneActionStacks 1).2) 2 = oneActionStacks 2 ∧
    UndoStack.clear oneActionStacks 1 2 = oneActionStacks 2 :=
  stack_ops_actor_isolation oneActionStacks 1 2 (Action.OTHER "x") (by decide)

/-- Shared auxiliary fact: after a successful edit of an owned post, an
undo pops the just-pushed EDIT compensation and restores the original row;
the reported remaining count is the length of the stack below that
compensation. -/
theorem edit_undo_aux (st : ServerState) (userId : ActorId) (post_id : Nat)
    (content : String) (now : Nat) (p : Post)
    (hpid : post_id ≠ 0) (hc : content ≠ "") (ht : jsTrim content ≠ "")
    (hfind : st.posts.find? (ownedMatch post_id userId) = some p)
    (arr0 : List Action)
    (hat : (UndoStack.push st.stackMap userId
        (Action.EDIT p.id p.content (jsTrim content) now)) userId =
      some (arr0 ++ [Action.EDIT p.id p.content (jsTrim content) now])) :
    (undoPost ((editPost st userId post_id content now false false).2) userId false).1 =
      UndoResult.editUndone p arr0.length ∧
    ((undoPost ((editPost st userId post_id content now false false).2) userId false).2).posts.find?
      (ownedMatch post_id userId) = some p := by
  obtain ⟨hid, hauthor⟩ := ownedMatch_eq post_id userId p (List.find?_some hfind)
  subst hid
  have hedit := editPost_ok st userId p.id content now p hpid hc ht hfind
  have hst1 : ((editPost st userId p.id content now false false).2) =
      { posts := st.posts.map fun q =>
          if ownedMatch p.id userId q then { q with content := jsTrim content } else q,
        stackMap := UndoStack.push st.stackMap userId
          (Action.EDIT p.id p.content (jsTrim content) now) } := by
    rw [hedit]
  have hg1 : ∀ q : Post, ownedMatch p.id userId
      (if ownedMatch p.id userId q then { q with content := jsTrim content } else q) =
      ownedMatch p.id userId q := by
    intro q
    by_cases hq : ownedMatch p.id userId q
    · simp only [hq, if_true]
      exact hq
    · simp only [hq, Bool.false_eq_true, if_false]
  have hfind1 : ((st.posts.map fun q =>
      if ownedMatch p.id userId q then { q with content := jsTrim content } else q).find?
        (ownedMatch p.id userId)) = some { p with content := jsTrim content } := by
    rw [find?_map_of_pred st.posts
      (fun q => if ownedMatch p.id userId q then { q with content := jsTrim content } else q)
      (ownedMatch p.id userId) hg1, hfind]
    simp [List.find?_some hfind]
  have h2 := undoPost_edit_ok
    { posts := st.posts.map fun q =>
        if ownedMatch p.id userId q then { q with content := jsTrim content } else q,
      stackMap := UndoStack.push st.stackMap userId
        (Action.EDIT p.id p.content (jsTrim content) now) }
    userId p.id p.content (jsTrim content) now arr0
    { p with content := jsTrim content } hat hfind1
  constructor
  · rw [hst1, h2]
  · rw [hst1, h2]
    dsimp only
    have hfound : ownedMatch p.id userId { p with content := jsTrim content } = true :=
      List.find?_some hfind1
    have hg2 : ∀ r : Post, ownedMatch p.id userId
        (if ownedMatch p.id userId r then { r with content := p.content } else r) =
        ownedMatch p.id userId r := by
      intro r
      by_cases hr : ownedMatch p.id userId r
      · simp only [hr, if_true]
        exact hr
      · simp only [hr, Bool.false_eq_true, if_false]
    rw [find?_map_of_pred _
      (fun r => if ownedMatch p.id userId r then { r with content := p.content } else r)
      (ownedMatch p.id userId) hg2, hfind1]
    simp [hfound]

/-- C4: editing an owned post whose content is A to new content B and then
undoing (no interleaving actions, no store failures) yields content A
again: the edit pushes an EDIT compensation carrying the pre-mutation
content as original_content and the trimmed new content as new_content,
and the undo of that compensation writes original_content back, returning
exactly the original row. -/
theorem edit_then_undo_restores_content (st : ServerState) (userId : ActorId)
    (post_id : Nat) (content : String) (now : Nat) (p : Post)
    (hpid : post_id ≠ 0) (hc : content ≠ "") (ht : jsTrim content ≠ "")
    (hfind : st.posts.find? (ownedMatch post_id userId) = some p) :
    (editPost st userId post_id content now false false).1 =
      EditResult.ok { p with content := jsTrim content } ∧
    UndoStack.peek ((editPost st userId post_id content now false false).2).stackMap userId =
      some (Action.EDIT p.id p.content (jsTrim content) now) ∧
    ∃ remaining,
      (undoPost ((editPost st userId post_id content now false false).2) userId false).1 =
        UndoResult.editUndone p remaining ∧
      ((undoPost ((editPost st userId post_id content now false false).2) userId false).2).posts.find?
        (ownedMatch post_id userId) = some p := by
  obtain ⟨arr0, hat⟩ :=
    push_at st.stackMap userId (Action.EDIT p.id p.content (jsTrim content) now)
  have haux := edit_undo_aux st userId post_id content now p hpid hc ht hfind arr0 hat
  have hedit := editPost_ok st userId post_id content now p hpid hc ht hfind
  refine ⟨by rw [hedit], ?_, arr0.length, haux.1, haux.2⟩
  rw [hedit]
  exact peek_push st.stackMap userId _

def w4State : ServerState := ⟨[⟨2, 1, "A", 0, 0⟩], emptyStacks⟩

theorem edit_then_undo_restores_content_witness :
    (editPost w4State 1 2 "B" 5 false false).1 =
      EditResult.ok { Post.mk 2 1 "A" 0 0 with content := jsTrim "B" } ∧
    UndoStack.peek ((editPost w4State 1 2 "B" 5 false false).2).stackMap 1 =
      some (Action.EDIT (Post.mk 2 1 "A" 0 0).id (Post.mk 2 1 "A" 0 0).content
        (jsTrim "B") 5) ∧
    ∃ remaining,
      (undoPost ((editPost w4State 1 2 "B" 5 false false).2) 1 false).1 =
        UndoResult.editUndone (Post.mk 2 1 "A" 0 0) remaining ∧
      ((undoPost ((editPost w4State 1 2 "B" 5 false false).2) 1 false).2).posts.find?
        (ownedMatch 2 1) = some (Post.mk 2 1 "A" 0 0) :=
  edit_then_undo_restores_content w4State 1 2 "B" 5 (Post.mk 2 1 "A" 0 0)
    (by decide) (by decide) (by decide) (by decide)

/-- C8 (amended): after a successful edit-then-undo with no interleaving
actions, remaining_undos equals the actor's stack size just before the
edit's push whenever that size is below 10; when the stack already held 10
actions the edit's push evicts the oldest entry and remaining_undos is the
pre-push size minus one (9 for a full stack), not the pre-push size. -/
theorem remaining_undos_after_edit_undo (st : ServerState) (userId : ActorId)
    (post_id : Nat) (content : String) (now : Nat) (p : Post)
    (hpid : post_id ≠ 0) (hc : content ≠ "") (ht : jsTrim content ≠ "")
    (hfind : st.posts.find? (ownedMatch post_id userId) = some p) :
    (undoPost ((editPost st userId post_id content now false false).2) userId false).1 =
      UndoResult.editUndone p
        (if UndoStack.size st.stackMap userId < 10
         then UndoStack.size st.stackMap userId
         else UndoStack.size st.stackMap userId - 1) := by
  obtain ⟨arr0, heq, hlen⟩ :=
    push_concat st.stackMap userId (Action.EDIT p.id p.content (jsTrim content) now)
  have hat : (UndoStack.push st.stackMap userId
      (Action.EDIT p.id p.content (jsTrim content) now)) userId =
      some (arr0 ++ [Action.EDIT p.id p.content (jsTrim content) now]) := by
    rw [heq]
    simp
  have haux := edit_undo_aux st userId post_id content now p hpid hc ht hfind arr0 hat
  rw [haux.1, size_eq_getD]
  congr 1
  rw [hlen]
  by_cases h10 : 10 ≤ ((st.stackMap userId).getD []).length
  · have hlt : ¬ ((st.stackMap userId).getD []).length < 10 := by omega
    rw [if_pos h10, if_neg hlt]
  · have hlt : ((st.stackMap userId).getD []).length < 10 := by omega
    rw [if_neg h10, if_pos hlt]

def tenEditActs : List Action := List.replicate 10 (Action.EDIT 2 "x" "y" 0)

def overflowState : ServerState :=
  ⟨[⟨1, 1, "A", 0, 0⟩], fun k => if k = 1 then some tenEditActs else none⟩

/-- C8 counterexample: with ten actions already on actor 1's stack, editing
post 1 and then undoing succeeds with remaining_undos = 9, while the stack
size prior to the edit's push was 10 -- so "remaining_undos equals the
stack size immediately before the edit's push" fails in exactly the
eviction case the claim asserts to cover. -/
theorem remaining_undos_counterexample :
    UndoStack.size overflowState.stackMap 1 = 10 ∧
    (undoPost ((editPost overflowState 1 1 "B" 5 false false).2) 1 false).1 =
      UndoResult.editUndone (Post.mk 1 1 "A" 0 0) 9 ∧
    ¬ (undoPost ((editPost overflowState 1 1 "B" 5 false false).2) 1 false).1 =
      UndoResult.editUndone (Post.mk 1 1 "A" 0 0)
        (UndoStack.size overflowState.stackMap 1) :=
  ⟨by decide, by decide, by decide⟩

theorem remaining_undos_after_edit_undo_witness :
    (undoPost ((editPost overflowState 1 1 "B" 5 false false).2) 1 false).1 =
      UndoResult.editUndone (Post.mk 1 1 "A" 0 0)
        (if UndoStack.size overflowState.stackMap 1 < 10
         then UndoStack.size overflowState.stackMap 1
         else UndoStack.size overflowState.stackMap 1 - 1) :=
  remaining_undos_after_edit_undo overflowState 1 1 "B" 5 (Post.mk 1 1 "A" 0 0)
    (by decide) (by decide) (by decide) (by decide)

/-- C2: (i) after any sequence of stack operations starting from the fresh
map, every actor's size is at most 10; (ii) for a sequence of at most 10
pushes for one actor (no pops or clears), size equals the number of
pushes; (iii) an 11th push evicts the oldest (front) entry: the stored
sequence is exactly the last 10 pushed actions, size is 10, and the
evicted action -- when it does not recur among the survivors -- can never
again be returned by repeated pops. -/
theorem undo_stack_bounded_at_ten :
    (∀ (ops : List StackOp) (u : ActorId),
      UndoStack.size (applyOps emptyStacks ops) u ≤ 10) ∧
    (∀ (u : ActorId) (as : List Action), as.length ≤ 10 →
      UndoStack.size (pushAll emptyStacks u as) u = as.length) ∧
    (∀ (u : ActorId) (a0 : Action) (as : List Action), as.length = 10 →
      (pushAll emptyStacks u (a0 :: as)) u = some as ∧
      UndoStack.size (pushAll emptyStacks u (a0 :: as)) u = 10 ∧
      (a0 ∉ as → ∀ n : Nat,
        (UndoStack.pop (popN (pushAll emptyStacks u (a0 :: as)) u n) u).1 ≠ some a0)) := by
  refine ⟨?_, ?_, ?_⟩
  · intro ops u
    refine applyOps_size_le ops emptyStacks ?_ u
    intro w
    rw [size_eq_getD]
    simp [emptyStacks]
  · intro u as hlen
    exact pushAll_empty_size u as hlen
  · intro u a0 as hlen
    have hstore := pushAll_eleventh u a0 as hlen
    refine ⟨hstore, ?_, ?_⟩
    · rw [size_eq_getD, hstore]
      simpa using hlen
    · intro hnot n hpop
      have hmem := pop_mem _ u _ hpop
      have hsub := popN_getD_subset (pushAll emptyStacks u (a0 :: as)) u n
      have hin : a0 ∈ ((pushAll emptyStacks u (a0 :: as)) u).getD [] := hsub hmem
      rw [hstore] at hin
      exact hnot (by simpa using hin)

def act1 : Action := Action.OTHER "a"

def act2 : Action := Action.OTHER "b"

def tenOtherActs : List Action := List.replicate 10 act2

theorem undo_stack_bounded_at_ten_witness :
    UndoStack.size (applyOps emptyStacks [StackOp.pushOp 1 act1, StackOp.popOp 1]) 1 ≤ 10 ∧
    UndoStack.size (pushAll emptyStacks 1 [act1, act2]) 1 = 2 ∧
    (pushAll emptyStacks 1 (act1 :: tenOtherActs)) 1 = some tenOtherActs ∧
    UndoStack.size (pushAll emptyStacks 1 (act1 :: tenOtherActs)) 1 = 10 ∧
    (UndoStack.pop (popN (pushAll emptyStacks 1 (act1 :: tenOtherActs)) 1 0) 1).1 ≠
      some act1 :=
  ⟨undo_stack_bounded_at_ten.1 [StackOp.pushOp 1 act1, StackOp.popOp 1] 1,
   undo_stack_bounded_at_ten.2.1 1 [act1, act2] (by decide),
   (undo_stack_bounded_at_ten.2.2 1 act1 tenOtherActs (by decide)).1,
   (undo_stack_bounded_at_ten.2.2 1 act1 tenOtherActs (by decide)).2.1,
   (undo_stack_bounded_at_ten.2.2 1 act1 tenOtherActs (by decide)).2.2 (by decide) 0⟩

/-- C3: deleting an owned post and then undoing (no interleaving actions,
no store failures) re-creates a post whose id, owner id, content, like
count and created-at equal the snapshotted pre-delete values: the restored
row is exactly the original row with its original id (the re-insertion
passes the snapshotted id explicitly, so no new id is allocated), and it
is re-inserted into the posts table alongside the post-delete contents. -/
theorem delete_then_undo_restores_post (st : ServerState) (userId : ActorId)
    (post_id : Nat) (now : Nat) (p : Post)
    (hpid : post_id ≠ 0)
    (hfind : st.posts.find? (ownedMatch post_id userId) = some p) :
    ∃ remaining,
      (undoPost ((deletePost st userId post_id now false false).2) userId false).1 =
        UndoResult.deleteUndone
          { id := p.id, author_id := p.author_id, content := p.content,
            likes := p.likes, created_at := p.created_at } remaining ∧
      ((undoPost ((deletePost st userId post_id now false false).2) userId false).2).posts =
        deleteOwned st.posts post_id userId ++ [p] := by
  have hdel := deletePost_ok st userId post_id now p hpid hfind
  have hst1 : ((deletePost st userId post_id now false false).2) =
      { posts := deleteOwned st.posts post_id userId,
        stackMap := UndoStack.push st.stackMap userId (Action.DELETE p now) } := by
    rw [hdel]
  obtain ⟨arr0, hat⟩ := push_at st.stackMap userId (Action.DELETE p now)
  have h2 := undoPost_delete_ok
    { posts := deleteOwned st.posts post_id userId,
      stackMap := UndoStack.push st.stackMap userId (Action.DELETE p now) }
    userId p now arr0 hat
  refine ⟨arr0.length, ?_, ?_⟩
  · rw [hst1, h2]
  · rw [hst1, h2]

def w3State : ServerState := ⟨[⟨5, 1, "hello", 3, 7⟩], emptyStacks⟩

theorem delete_then_undo_restores_post_witness :
    ∃ remaining,
      (undoPost ((deletePost w3State 1 5 9 false false).2) 1 false).1 =
        UndoResult.deleteUndone
          { id := (Post.mk 5 1 "hello" 3 7).id,
            author_id := (Post.mk 5 1 "hello" 3 7).author_id,
            content := (Post.mk 5 1 "hello" 3 7).content,
            likes := (Post.mk 5 1 "hello" 3 7).likes,
            created_at := (Post.mk 5 1 "hello" 3 7).created_at } remaining ∧
      ((undoPost ((deletePost w3State 1 5 9 false false).2) 1 false).2).posts =
        deleteOwned w3State.posts 5 1 ++ [Post.mk 5 1 "hello" 3 7] :=
  delete_then_undo_restores_post w3State 1 5 9 (Post.mk 5 1 "hello" 3 7)
    (by decide) (by decide)

end EduMedia
